import Mathlib

/-!
Shallow embedding of `src/simple_bench.c`, the Paragon CPU-vs-GPU
micro-benchmark harness.

Conventions of the embedding:
* C strings are modelled as `List Char` (the terminating NUL is implicit);
  `String` wrappers are provided where a claim speaks about whole descriptors.
* C `float`/`double` computations whose values are exact in the ranges the
  claims quantify over are modelled in `ℚ`; where a float literal matters
  (`1e-4f`) its exact binary32 value is used and derived in a comment.
* The foreign-call sequencing of `run_case` is modelled as an event trace.
Line numbers in comments refer to `src/simple_bench.c`.
-/

/- ────────── decimal rendering of snprintf("%d", n) for n ≥ 0 ────────── -/

/-- The ten decimal digit characters. -/
def digitChars : List Char := ['0','1','2','3','4','5','6','7','8','9']

/-- Decimal digit character for `d % 10`-style arguments (total on `Nat`). -/
def digitChar : Nat → Char
| 0 => '0'
| 1 => '1'
| 2 => '2'
| 3 => '3'
| 4 => '4'
| 5 => '5'
| 6 => '6'
| 7 => '7'
| 8 => '8'
| _ => '9'

/-- Accumulator-style decimal rendering; `fuel`-structural so that the kernel
can evaluate it. Called with `fuel = n + 1`, which always suffices. -/
def natDigitsCore : Nat → Nat → List Char → List Char
| 0, _, acc => acc
| fuel+1, n, acc =>
  if n < 10 then digitChar (n % 10) :: acc
  else natDigitsCore fuel (n / 10) (digitChar (n % 10) :: acc)

/-- The decimal digits printed by `snprintf("%d", n)` for a nonnegative `n`. -/
def natStr (n : Nat) : List Char := natDigitsCore (n + 1) n []

/- ────────── ConfigBuilder: layer / activation / connectivity JSON ────────── -/

/-- One `{"Width":w,"Height":1}` topology entry (the format string of
lines 117, 119 and 122). -/
def entryChars (w : Nat) : List Char :=
  ['\x7b','\"','W','i','d','t','h','\"',':'] ++ natStr w
    ++ [',','\"','H','e','i','g','h','t','\"',':','1','\x7d']

/-- Line 123: `for (i=1;i<len;i++) if (buf[i-1]==']' && buf[i]==',') buf[i]=' ';`.
The first argument threads the (possibly already rewritten) previous character,
exactly as the in-place C loop reads it. -/
def fixupAux : Char → List Char → List Char
| _, [] => []
| prev, c :: rest =>
  let c2 := if prev = ']' ∧ c = ',' then ' ' else c
  c2 :: fixupAux c2 rest

/-- The whole line-123 pass (position 0 is never rewritten). -/
def fixup : List Char → List Char
| [] => []
| c :: rest => c :: fixupAux c rest

/-- Comma-separated catenation, the closed form the builders produce. -/
def sepJoin : List (List Char) → List Char
| [] => []
| [x] => x
| x :: y :: rest => x ++ [','] ++ sepJoin (y :: rest)

/-- build_layers_json (lines 112-125), character-list core.  `s1`/`s2` are the
buffer after lines 116-120, `s3` after the line-121 trailing-comma drop, `s4`
after line 122, and the result applies the line-123 rewrite pass. -/
def build_layers_core (in_dim hidden hidden_layers out_dim : Nat) : List Char :=
  let s1 := '[' :: (entryChars in_dim ++ [','])
  let s2 := s1 ++ (List.replicate hidden_layers (entryChars hidden ++ [','])).flatten
  let s3 := if s2.getLast? = some ',' then s2.dropLast else s2
  let s4 := s3 ++ ([','] ++ entryChars out_dim ++ [']'])
  fixup s4

/-- build_layers_json as a `String`. -/
def build_layers_json (in_dim hidden hidden_layers out_dim : Nat) : String :=
  ⟨build_layers_core in_dim hidden hidden_layers out_dim⟩

/-- The loop shape shared by build_activ_json and build_fully_json
(lines 132-135 / 145-148): emit `item`, then a comma iff `i < total-1`.
The argument counts the remaining iterations. -/
def sepItems (item : List Char) : Nat → List Char
| 0 => []
| 1 => item
| n+2 => item ++ [','] ++ sepItems item (n+1)

/-- The `"relu"` activation literal (line 133). -/
def reluChars : List Char := ['\"','r','e','l','u','\"']

/-- The `true` connectivity literal (line 146). -/
def trueChars : List Char := ['t','r','u','e']

/-- build_activ_json (lines 127-138), character-list core. -/
def build_activ_core (total_layers : Nat) : List Char :=
  '[' :: sepItems reluChars total_layers ++ [']']

/-- build_activ_json as a `String`. -/
def build_activ_json (total_layers : Nat) : String := ⟨build_activ_core total_layers⟩

/-- build_fully_json (lines 140-151), character-list core. -/
def build_fully_core (total_layers : Nat) : List Char :=
  '[' :: sepItems trueChars total_layers ++ [']']

/-- build_fully_json as a `String`. -/
def build_fully_json (total_layers : Nat) : String := ⟨build_fully_core total_layers⟩

/- ────────── ConfigBuilder: VRAM estimate ────────── -/

/-- est_vram_mb_fc (lines 103-109).  All intermediate `double` values are
integers far below `2^53` in the ranges the claims quantify over, and the
final scaling multiplies by 4 and divides by a power of two, so the C double
computation is exact and coincides with this rational one. -/
def est_vram_mb_fc (in_dim hidden hidden_layers out_dim : ℤ) : ℚ :=
  let params0 : ℚ := (in_dim : ℚ) * (hidden : ℚ)
  let params1 : ℚ :=
    if 1 < hidden_layers then
      params0 + ((hidden_layers : ℚ) - 1) * (hidden : ℚ) * (hidden : ℚ)
    else params0
  let params2 : ℚ := params1 + (hidden : ℚ) * (out_dim : ℚ)
  let params3 : ℚ := params2 + (hidden_layers : ℚ) * (hidden : ℚ) + (out_dim : ℚ)
  params3 * 4 / (1024 * 1024)

/- ────────── InputSynthesizer ────────── -/

/-- The values drawn by make_input (lines 84-88): after `srand(42)` each loop
iteration computes `(float)rand() / (float)RAND_MAX`.  `r` abstracts the libc
`rand` stream after the fixed seeding (the C standard guarantees only
`0 ≤ rand() ≤ RAND_MAX`, with `RAND_MAX` implementation-defined: `2147483647`
on glibc, `32767` on Windows), and `randMax` is the platform's `RAND_MAX`.
The quotient is modelled exactly in `ℚ`; binary32 rounding of the division
can only move a value towards (never past) `1`. -/
def make_input_vals (randMax : Nat) (r : Nat → Nat) (in_dim : Nat) : List ℚ :=
  (List.range in_dim).map (fun i => (r i : ℚ) / (randMax : ℚ))

/- ────────── main's fixed case table (lines 229-245) ────────── -/

/-- The fixed case table of main (lines 229-241): name, hidden width,
hidden-layer count. -/
def benchCases : List (String × Nat × Nat) :=
  [("S1", 64, 1), ("S2", 128, 1), ("S3", 256, 1),
   ("M1", 256, 2), ("M2", 384, 2), ("M3", 512, 2),
   ("L1", 768, 3), ("L2", 1024, 3),
   ("XL1", 1536, 4), ("XL2", 2048, 4)]

/-- Constant `IN` of main (line 243). -/
def inDimMain : Nat := 784

/-- Constant `OUT` of main (line 244). -/
def outDimMain : Nat := 10

/-- Constant `RUNS` of main (line 245). -/
def runsMain : Nat := 100

/- ────────── EngineClient: string scanning and field extraction ────────── -/

/-- strstr: the suffix of the haystack beginning at the first occurrence of
`pat`, or `none` (NULL) when `pat` does not occur. -/
def strstrSuffix (pat : List Char) : List Char → Option (List Char)
| [] => if pat.isPrefixOf ([] : List Char) then some [] else none
| c :: rest =>
  if pat.isPrefixOf (c :: rest) then some (c :: rest) else strstrSuffix pat rest

/-- strchr: the suffix beginning at the first occurrence of character `c`,
or `none` (NULL). -/
def strchrSuffix (c : Char) : List Char → Option (List Char)
| [] => none
| d :: rest => if d = c then some (d :: rest) else strchrSuffix c rest

/-- is_error (line 67): the payload contains the `"error"` marker.  The
NULL-payload case (`js == NULL`) has no counterpart for a `List Char`. -/
def is_error (js : List Char) : Bool :=
  (strstrSuffix ['\"','e','r','r','o','r','\"'] js).isSome

/-- Numeric value of a decimal digit character. -/
def digitVal (c : Char) : Nat := c.toNat - 48

/-- Value of a list of decimal digits, most significant first. -/
def decValue (ds : List Char) : Nat :=
  ds.foldl (fun acc c => acc * 10 + digitVal c) 0

/-- isspace in the "C" locale. -/
def isSpaceCh (c : Char) : Bool :=
  c == ' ' || c == '\t' || c == '\n' || c == '\x0b' || c == '\x0c' || c == '\r'

/-- strtoll(p, NULL, 10): skip isspace, optional sign, then decimal digits;
0 when there are no digits.  Clamping to LLONG_MAX on overflow is not
modelled (no claim depends on it). -/
def strtollDec (p : List Char) : Int :=
  let p1 := p.dropWhile isSpaceCh
  match p1 with
  | '-' :: rest => -(decValue (rest.takeWhile Char.isDigit) : Int)
  | '+' :: rest => (decValue (rest.takeWhile Char.isDigit) : Int)
  | _ => (decValue (p1.takeWhile Char.isDigit) : Int)

/-- The `"handle"` field marker of line 70. -/
def handleMarker : List Char := ['\"','h','a','n','d','l','e','\"']

/-- parse_handle (lines 69-75).  Line 73 steps past the colon and any
spaces/tabs before line 74 hands the rest to `strtoll`.  When no ':' follows
the marker the C code passes NULL to `strtoll` (undefined behaviour,
unreachable under the engine's payload format); that branch is modelled
as 0. -/
def parse_handle (js : List Char) : Int :=
  match strstrSuffix handleMarker js with
  | none => 0
  | some h =>
    match strchrSuffix ':' h with
    | none => 0
    | some colonTail =>
      strtollDec ((colonTail.drop 1).dropWhile (fun c => c == ' ' || c == '\t'))

/-- Exact value of a decimal fraction `.d₁d₂…`. -/
def fracValue (ds : List Char) : ℚ :=
  ds.foldr (fun c acc => ((digitVal c : ℚ) + acc) / 10) 0

/-- strtof (line 97), restricted to the decimal forms of C11: optional
isspace, optional sign, digits, optional '.' and digits, optional decimal
exponent.  Returns the exact rational value — binary32 rounding is not
modelled — together with the unconsumed suffix (the `endptr` out-parameter);
when no conversion is possible it returns 0 with the original pointer, as
strtof does.  Hexadecimal, infinity and nan forms, which never occur in the
engine's JSON payloads, are not modelled. -/
def strtofQ (p : List Char) : ℚ × List Char :=
  let p1 := p.dropWhile isSpaceCh
  let sp : ℚ × List Char :=
    match p1 with
    | '-' :: r => (-1, r)
    | '+' :: r => (1, r)
    | _ => (1, p1)
  let p2 := sp.2
  let ip := p2.takeWhile Char.isDigit
  let p3 := p2.dropWhile Char.isDigit
  let fp4 : List Char × List Char :=
    match p3 with
    | '.' :: r => (r.takeWhile Char.isDigit, r.dropWhile Char.isDigit)
    | _ => ([], p3)
  let fp := fp4.1
  let p4 := fp4.2
  if ip.isEmpty && fp.isEmpty then (0, p)
  else
    let mantissa : ℚ := sp.1 * ((decValue ip : ℚ) + fracValue fp)
    match p4 with
    | [] => (mantissa, [])
    | e :: r =>
      if e == 'e' || e == 'E' then
        let er : Int × List Char :=
          match r with
          | '-' :: r2 => (-1, r2)
          | '+' :: r2 => (1, r2)
          | _ => (1, r)
        let eds := er.2.takeWhile Char.isDigit
        if eds.isEmpty then (mantissa, p4)
        else (mantissa * (10 : ℚ) ^ (er.1 * (decValue eds : Int)),
              er.2.dropWhile Char.isDigit)
      else (mantissa, p4)

/-- The loop of extract_first_n (lines 96-99).  The first argument counts the
remaining iterations (`n - i`), so the C test `i == n-1` becomes "one
iteration left"; `out[i] = strtof(p, &p)` is a `List.set`, and a missing
separator breaks out of the loop after that write, exactly as line 98 does. -/
def extractLoop : Nat → Nat → List Char → List ℚ → List ℚ
| 0, _, _, out => out
| k+1, i, p, out =>
  let r := strtofQ p
  let out1 := out.set i r.1
  match strchrSuffix (if k = 0 then ']' else ',') r.2 with
  | none => out1
  | some t => extractLoop k (i+1) (t.drop 1) out1

/-- extract_first_n (lines 94-100): find `"[["`, step past it, then run the
extraction loop; when `"[["` is absent return the output array untouched. -/
def extract_first_n (js : List Char) (out : List ℚ) (n : Nat) : List ℚ :=
  match strstrSuffix ['[','['] js with
  | none => out
  | some p => extractLoop n 0 (p.drop 2) out

/- ────────── ParityChecker ────────── -/

/-- Exact binary32 value of the float literal `1e-4f` of line 212.
Derivation: `1e-4 = 1.6384 × 2^-14`; the 24-bit significand rounds
`1.6384 × 2^23 = 13743895.3472` to `13743895`, so
`(float)1e-4 = 13743895 × 2^-37 = 13743895 / 137438953472
≈ 9.99999974738e-5`, slightly below `1e-4`. -/
def tol_f32 : ℚ := 13743895 / 137438953472

/-- The parity loop of lines 208-213: over indices 0..9, count those whose
absolute CPU/GPU difference satisfies `d < 1e-4f`.  The entries are the exact
rational values of the binary32 numbers the C code compares; the float
comparison of line 212 is exact-value comparison, modelled directly on `ℚ`. -/
def parity_count (c g : List ℚ) : Nat :=
  (List.range 10).countP (fun i => decide (|c.getD i 0 - g.getD i 0| < tol_f32))

/- ────────── BenchmarkRunner: run_case as an event trace ────────── -/

/-- Observable events of one run_case execution: a foreign call returning a
Go-allocated buffer (numbered in call order), the release of such a buffer
through `Paragon_FreeCString` (inside `steal`, line 64), and the release of
the case's network handle through `Paragon_Free` (lines 173 and 219). -/
inductive Ev where
| call : Nat → Ev
| freeC : Nat → Ev
| pfree : Ev
deriving DecidableEq

/-- The trace of `steal(Paragon_…(…))` (line 61-66): the foreign call mints
buffer `b`, `xstrdup` copies its contents into locally owned memory, and
`Paragon_FreeCString` releases the foreign buffer before `steal` returns —
hence before any further foreign call. -/
def stealOf (b : Nat) : List Ev := [Ev.call b, Ev.freeC b]

/-- A Forward loop of `k` stolen calls (lines 181/183/194/196), buffers
numbered from `b`. -/
def forwardLoop : Nat → Nat → List Ev
| _, 0 => []
| b, k+1 => stealOf b ++ forwardLoop (b+1) k

/-- The engine's responses to the three calls whose error marker run_case
inspects (lines 168, 173, 192).  Forward/ExtractOutput/DisableGPU responses
are stolen and freed but never classified, so their contents do not steer the
control flow.  Responses are assumed non-NULL (a NULL response would send the
C code into undefined behaviour at line 167's `printf("%s")` already). -/
structure EngResp where
  newResp : List Char
  perturbResp : List Char
  enableResp : List Char

/-- The foreign-call trace of run_case (lines 153-223) for a given engine
behaviour and run count.  Control flow mirrors the source exactly:
* create fails (line 168): `goto cleanup`, no handle exists, no `Paragon_Free`;
* perturb fails (line 173): `Paragon_Free(h)` then `goto cleanup`;
* EnableGPU fails (line 192): `goto compare_and_done`, which ends with
  `Paragon_Free(h)` (line 219);
* full success: GPU warmup/measure/extract, then line 219's `Paragon_Free(h)`.
Buffer numbers: 0 NewNetworkFloat32, 1 PerturbWeights, 2 DisableGPU,
3..12 CPU warmup, 13..12+runs CPU measure, 13+runs CPU ExtractOutput,
14+runs EnableGPU, then on the GPU path 15+runs..24+runs GPU warmup,
25+runs..24+2·runs GPU measure, 25+2·runs GPU ExtractOutput. -/
def runCaseTrace (e : EngResp) (runs : Nat) : List Ev :=
  let t0 := stealOf 0
  if is_error e.newResp then t0
  else
    let t1 := stealOf 1
    if is_error e.perturbResp then t0 ++ t1 ++ [Ev.pfree]
    else
      let pre := t0 ++ t1 ++ stealOf 2 ++ forwardLoop 3 10 ++ forwardLoop 13 runs
        ++ stealOf (13 + runs) ++ stealOf (14 + runs)
      if is_error e.enableResp then pre ++ [Ev.pfree]
      else
        pre ++ forwardLoop (15 + runs) 10 ++ forwardLoop (25 + runs) runs
          ++ stealOf (25 + 2 * runs) ++ [Ev.pfree]

/-- Buffer discipline: every foreign call returning a buffer is immediately
followed by the `Paragon_FreeCString` of that same buffer. -/
def nextIsFree (b : Nat) : List Ev → Bool
| Ev.freeC b2 :: _ => b2 == b
| _ => false

/-- Checks the immediate-release discipline along a whole trace. -/
def disciplined : List Ev → Bool
| [] => true
| Ev.call b :: rest => nextIsFree b rest && disciplined rest
| Ev.freeC _ :: rest => disciplined rest
| Ev.pfree :: rest => disciplined rest

/-- The speed-up figure of run_case: line 201 prints `cpu_t/gpu_t`, and is
reached only when creation (line 168), perturbation (line 173) and EnableGPU
(line 192) all succeeded; no other condition — in particular no test of
`gpu_t` against zero — guards the division. -/
def runCaseSpeedup (e : EngResp) (cpuT gpuT : ℚ) : Option ℚ :=
  if is_error e.newResp then none
  else if is_error e.perturbResp then none
  else if is_error e.enableResp then none
  else some (cpuT / gpuT)

/- ────────── theorems ────────── -/

theorem digitChar_mem : ∀ d : Nat, digitChar d ∈ digitChars
| 0 => by decide
| 1 => by decide
| 2 => by decide
| 3 => by decide
| 4 => by decide
| 5 => by decide
| 6 => by decide
| 7 => by decide
| 8 => by decide
| _+9 => by show '9' ∈ digitChars; decide

theorem natDigitsCore_mem : ∀ (fuel n : Nat) (acc : List Char) (c : Char),
    c ∈ natDigitsCore fuel n acc → c ∈ acc ∨ c ∈ digitChars
| 0, _, _, _, hc => Or.inl hc
| fuel+1, n, acc, c, hc => by
  unfold natDigitsCore at hc
  split at hc
  · rcases List.mem_cons.mp hc with hc | hc
    · exact Or.inr (by rw [hc]; exact digitChar_mem _)
    · exact Or.inl hc
  · rcases natDigitsCore_mem fuel (n / 10) _ c hc with hc | hc
    · rcases List.mem_cons.mp hc with hc | hc
      · exact Or.inr (by rw [hc]; exact digitChar_mem _)
      · exact Or.inl hc
    · exact Or.inr hc

theorem natStr_mem_digits {c : Char} {n : Nat} (h : c ∈ natStr n) :
    c ∈ digitChars := by
  rcases natDigitsCore_mem _ _ _ _ h with h' | h'
  · cases h'
  · exact h'

theorem natStr_count_eq_zero {c : Char} (hc : c ∉ digitChars) (n : Nat) :
    (natStr n).count c = 0 :=
  List.count_eq_zero.mpr (fun h => hc (natStr_mem_digits h))

theorem count_pfree_stealOf (b : Nat) : (stealOf b).count Ev.pfree = 0 := by
  simp [stealOf, List.count_cons]

theorem count_pfree_forwardLoop : ∀ (k b : Nat), (forwardLoop b k).count Ev.pfree = 0
| 0, _ => rfl
| k+1, b => by
  simp [forwardLoop, List.count_append, count_pfree_stealOf, count_pfree_forwardLoop k (b+1)]

theorem count_call_freeC_stealOf (x b : Nat) :
    (stealOf b).count (Ev.call x) = (stealOf b).count (Ev.freeC x) := by
  by_cases hbx : b = x <;> simp [stealOf, List.count_cons, hbx]

theorem count_call_freeC_forwardLoop : ∀ (k b x : Nat),
    (forwardLoop b k).count (Ev.call x) = (forwardLoop b k).count (Ev.freeC x)
| 0, _, _ => rfl
| k+1, b, x => by
  simp only [forwardLoop, List.count_append]
  rw [count_call_freeC_stealOf, count_call_freeC_forwardLoop k (b+1) x]

theorem disciplined_stealOf (b : Nat) (l : List Ev) :
    disciplined (stealOf b ++ l) = disciplined l := by
  simp [stealOf, disciplined, nextIsFree]

theorem disciplined_forwardLoop : ∀ (k b : Nat) (l : List Ev),
    disciplined (forwardLoop b k ++ l) = disciplined l
| 0, _, _ => rfl
| k+1, b, l => by
  rw [forwardLoop, List.append_assoc, disciplined_stealOf,
    disciplined_forwardLoop k (b+1) l]

/-- C1: for every execution path through a benchmark case (full success,
create-network failure, perturb-weights failure, GPU-enable failure), the
number of `Paragon_Free` calls on the case's handle is 1 when create-network
succeeded and 0 when it failed. -/
theorem c1_handle_release_once (e : EngResp) (runs : Nat) :
    (runCaseTrace e runs).count Ev.pfree = if is_error e.newResp then 0 else 1 := by
  unfold runCaseTrace
  cases h0 : is_error e.newResp
  · cases h1 : is_error e.perturbResp
    · cases h2 : is_error e.enableResp <;>
        simp [h1, h2, List.count_append, count_pfree_stealOf, count_pfree_forwardLoop,
          List.count_cons]
    · simp [h1, List.count_append, count_pfree_stealOf, List.count_cons]
  · simp [count_pfree_stealOf]

/-- C2: along every run_case trace, each foreign call's returned buffer is
released via `Paragon_FreeCString` immediately after the call — hence before
any further foreign call — and for every buffer the number of release events
equals the number of call events that returned it (exactly once per buffer). -/
theorem count_call_pfree_one (b : Nat) : List.count (Ev.call b) [Ev.pfree] = 0 := by
  simp [List.count_cons]

theorem count_freeC_pfree_one (b : Nat) : List.count (Ev.freeC b) [Ev.pfree] = 0 := by
  simp [List.count_cons]

theorem disciplined_pfree_nil : disciplined [Ev.pfree] = true := rfl

theorem c2_buffer_discipline (e : EngResp) (runs b : Nat) :
    disciplined (runCaseTrace e runs) = true ∧
    (runCaseTrace e runs).count (Ev.call b) = (runCaseTrace e runs).count (Ev.freeC b) := by
  unfold runCaseTrace
  cases h0 : is_error e.newResp
  · cases h1 : is_error e.perturbResp
    · cases h2 : is_error e.enableResp <;>
        refine ⟨?_, ?_⟩ <;>
        simp [h1, h2, List.append_assoc, disciplined_stealOf, disciplined_forwardLoop,
          disciplined_pfree_nil, List.count_append, count_call_freeC_stealOf,
          count_call_freeC_forwardLoop, count_call_pfree_one, count_freeC_pfree_one]
    · refine ⟨?_, ?_⟩ <;>
        simp [h1, List.append_assoc, disciplined_stealOf, disciplined_pfree_nil,
          List.count_append, count_call_freeC_stealOf, count_call_pfree_one,
          count_freeC_pfree_one]
  · constructor
    · show disciplined (stealOf 0) = true
      decide
    · show (stealOf 0).count (Ev.call b) = (stealOf 0).count (Ev.freeC b)
      exact count_call_freeC_stealOf b 0

/-- C3 counterexample: with all three inspected responses successful and a
degenerate gpuElapsed of 0, run_case still produces a speed-up figure — no
test of gpuElapsed against zero guards the division of line 201, so the
claimed division-by-zero guard does not exist. -/
theorem c3_no_zero_guard_cex :
    is_error ("ok".data) = false ∧
    runCaseSpeedup ⟨"ok".data, "ok".data, "ok".data⟩ 1 0 ≠ none := by
  constructor
  · decide
  · decide

/-- C3 amended: the speed-up figure cpuElapsed/gpuElapsed is produced exactly
when creation, perturbation and GPU-enable all succeeded, and on that path it
is produced unconditionally — with no guard against gpuElapsed = 0. -/
theorem c3_speedup_amended (e : EngResp) (cpuT gpuT : ℚ) :
    (runCaseSpeedup e cpuT gpuT ≠ none ↔
      is_error e.newResp = false ∧ is_error e.perturbResp = false ∧
        is_error e.enableResp = false) ∧
    (is_error e.newResp = false → is_error e.perturbResp = false →
      is_error e.enableResp = false →
        runCaseSpeedup e cpuT gpuT = some (cpuT / gpuT)) := by
  unfold runCaseSpeedup
  cases h0 : is_error e.newResp <;> cases h1 : is_error e.perturbResp <;>
    cases h2 : is_error e.enableResp <;> simp [h0, h1, h2]

/-- Witness for the amended C3 theorem at a concrete successful engine. -/
theorem c3_speedup_witness :
    runCaseSpeedup ⟨"ok".data, "ok".data, "ok".data⟩ 3 2 = some (3 / 2) :=
  (c3_speedup_amended ⟨"ok".data, "ok".data, "ok".data⟩ 3 2).2
    (by decide) (by decide) (by decide)

/-- C4 counterexample: a conforming `rand` draw of exactly `RAND_MAX` (glibc
value 2147483647) makes `(float)rand()/(float)RAND_MAX` equal to 1, outside
the claimed half-open interval [0,1); the C contract `0 ≤ rand() ≤ RAND_MAX`
therefore does not ensure the claim. -/
theorem c4_unit_interval_cex :
    (∀ i : Nat, (fun _ : Nat => 2147483647) i ≤ 2147483647) ∧
    ¬ (∀ v ∈ make_input_vals 2147483647 (fun _ : Nat => 2147483647) 1,
        0 ≤ v ∧ v < 1) := by
  have hv : make_input_vals 2147483647 (fun _ : Nat => 2147483647) 1 = [1] := by
    norm_num [make_input_vals, List.range_succ]
  refine ⟨fun _ => le_refl _, fun h => ?_⟩
  have h1 := h 1 (by rw [hv]; exact List.mem_singleton.mpr rfl)
  exact absurd h1.2 (lt_irrefl (1 : ℚ))

/-- C4 amended: every value drawn by the input synthesizer lies in the closed
interval [0,1]; the upper endpoint is attained exactly on a draw of RAND_MAX,
so the half-open interval of the original claim is the only part that fails. -/
theorem c4_values_in_closed_unit (randMax : Nat) (r : Nat → Nat)
    (hM : 0 < randMax) (hr : ∀ i, r i ≤ randMax) (in_dim : Nat) :
    ∀ v ∈ make_input_vals randMax r in_dim, 0 ≤ v ∧ v ≤ 1 := by
  intro v hv
  rcases List.mem_map.mp hv with ⟨i, _, rfl⟩
  constructor
  · exact div_nonneg (Nat.cast_nonneg _) (Nat.cast_nonneg _)
  · rw [div_le_one (by exact_mod_cast hM)]
    exact_mod_cast hr i

/-- Witness for the amended C4 theorem at a concrete conforming stream and a
concrete drawn value. -/
theorem c4_values_witness : 0 ≤ (0 : ℚ) ∧ (0 : ℚ) ≤ 1 :=
  c4_values_in_closed_unit 2147483647 (fun _ : Nat => 0) (by decide)
    (fun _ => Nat.zero_le _) 1 0
    (by simp [make_input_vals, List.range_succ])

/-- C6: the VRAM estimate equals
`(in·h + max(0,hl−1)·h² + h·out + hl·h + out) · 4 / 2^20` megabytes for all
positive dimensions; the source's `if (hidden_layers > 1)` realizes the
`max(0, hl−1)` of the formula. -/
theorem c6_vram_formula (in_dim hidden hidden_layers out_dim : ℤ)
    (h1 : 0 < in_dim) (h2 : 0 < hidden) (h3 : 0 ≤ hidden_layers) (h4 : 0 < out_dim) :
    est_vram_mb_fc in_dim hidden hidden_layers out_dim =
      ((in_dim * hidden + max 0 (hidden_layers - 1) * hidden ^ 2 + hidden * out_dim
        + hidden_layers * hidden + out_dim : ℤ) : ℚ) * 4 / 2 ^ 20 := by
  simp only [est_vram_mb_fc]
  by_cases hgt : 1 < hidden_layers
  · rw [if_pos hgt, max_eq_right (by omega : (0:ℤ) ≤ hidden_layers - 1)]
    push_cast
    ring_nf
  · rw [if_neg hgt, max_eq_left (by omega : hidden_layers - 1 ≤ (0:ℤ))]
    push_cast
    ring_nf

/-- Witness for C6 at the S1 case dimensions. -/
theorem c6_vram_witness :
    est_vram_mb_fc 784 64 1 10 =
      ((784 * 64 + max 0 (1 - 1) * 64 ^ 2 + 64 * 10 + 1 * 64 + 10 : ℤ) : ℚ) * 4 / 2 ^ 20 :=
  c6_vram_formula 784 64 1 10 (by decide) (by decide) (by decide) (by decide)

/-- C8 counterexample: the effective tolerance of line 212 is the binary32
value of `1e-4f`, which is strictly below the real number 1e-4.  A CPU/GPU
difference exactly equal to that float (reachable: cpu = (float)1e-4,
gpu = 0, both exactly representable and parseable) is strictly below 1e-4
yet is counted as a non-match at every index, where the claim as stated
predicts 10 matches. -/
theorem c8_tolerance_cex :
    tol_f32 < 1 / 10000 ∧
    parity_count (List.replicate 10 tol_f32) (List.replicate 10 0) = 0 := by
  constructor
  · norm_num [tol_f32]
  · with_unfolding_all decide

/-- C8 amended: an index is a match exactly when the absolute difference is
strictly below the binary32 rounding of 1e-4, `13743895/2^37 ≈ 9.9999997e-5`;
in particular a difference of exactly 9.99e-5 is counted as a match at all
ten indices and a difference of exactly 1.01e-4 at none. -/
theorem c8_parity_amended (c g : List ℚ) :
    (parity_count c g = 10 ↔ ∀ i < 10, |c.getD i 0 - g.getD i 0| < tol_f32) ∧
    parity_count (List.replicate 10 (999 / 10000000)) (List.replicate 10 0) = 10 ∧
    parity_count (List.replicate 10 (101 / 1000000)) (List.replicate 10 0) = 0 := by
  refine ⟨?_, by with_unfolding_all decide, by with_unfolding_all decide⟩
  unfold parity_count
  constructor
  · intro h i hi
    have h2 : ((List.range 10).countP
        (fun i => decide (|c.getD i 0 - g.getD i 0| < tol_f32)))
        = (List.range 10).length := by
      rw [List.length_range]
      exact h
    exact of_decide_eq_true (List.countP_eq_length.mp h2 i (List.mem_range.mpr hi))
  · intro h
    have h2 := List.countP_eq_length.mpr
      (fun a ha => decide_eq_true (h a (List.mem_range.mp ha)))
    rw [h2, List.length_range]

theorem getD_set_ne (a : ℚ) : ∀ (l : List ℚ) (i m : Nat), m ≠ i →
    (l.set i a).getD m 0 = l.getD m 0
| [], _, _, _ => rfl
| _ :: _, 0, 0, h => absurd rfl h
| _ :: _, 0, _+1, _ => rfl
| _ :: _, _+1, 0, _ => rfl
| _ :: t, i+1, m+1, h => getD_set_ne a t i m (fun he => h (by rw [he]))

theorem getD_replicate_zero : ∀ (n m : Nat), (List.replicate n (0:ℚ)).getD m 0 = 0
| 0, _ => rfl
| _+1, 0 => rfl
| n+1, m+1 => getD_replicate_zero n m

/-- The extraction loop writes a contiguous block of at most `k` entries
starting at index `i`; its length and every entry outside that block are
unchanged. -/
theorem extractLoop_frame : ∀ (k i : Nat) (p : List Char) (out : List ℚ),
    ∃ j ≤ k, (extractLoop k i p out).length = out.length ∧
      ∀ m, (m < i ∨ i + j ≤ m) → (extractLoop k i p out).getD m 0 = out.getD m 0
| 0, i, p, out => ⟨0, Nat.zero_le _, rfl, fun _ _ => rfl⟩
| k+1, i, p, out => by
  simp only [extractLoop]
  cases hs : strchrSuffix (if k = 0 then ']' else ',') (strtofQ p).2 with
  | none =>
    refine ⟨1, by omega, List.length_set .., fun m hm => ?_⟩
    exact getD_set_ne _ _ _ _ (by omega)
  | some t =>
    obtain ⟨j, hj, hlen, hfr⟩ :=
      extractLoop_frame k (i+1) (t.drop 1) (out.set i (strtofQ p).1)
    refine ⟨j+1, by omega, ?_, fun m hm => ?_⟩
    · rw [hlen, List.length_set]
    · rw [hfr m (by omega)]
      exact getD_set_ne _ _ _ _ (by omega)

/-- C10: extract_first_n writes only a prefix of positions 0..n−1 of the
caller's array (of length at least n); every position at or beyond the point
where it stops — and in particular every position ≥ n — retains the value it
held before the call, and the array's length is unchanged. -/
theorem c10_frame (js : List Char) (out : List ℚ) (n : Nat)
    (hn : n ≤ out.length) :
    ∃ j ≤ n, (extract_first_n js out n).length = out.length ∧
      ∀ m, j ≤ m → (extract_first_n js out n).getD m 0 = out.getD m 0 := by
  unfold extract_first_n
  cases hs : strstrSuffix ['[','['] js with
  | none => exact ⟨0, Nat.zero_le _, rfl, fun _ _ => rfl⟩
  | some p =>
    obtain ⟨j, hj, hlen, hfr⟩ := extractLoop_frame n 0 (p.drop 2) out
    exact ⟨j, hj, hlen, fun m hm => hfr m (Or.inr (by omega))⟩

/-- Witness for C10: a payload without the `"[["` array start leaves a
ten-entry array untouched. -/
theorem c10_frame_witness :
    10 ≤ (List.replicate 10 (0:ℚ)).length ∧
    (∃ j ≤ 10,
      (extract_first_n ("no array here".data) (List.replicate 10 (0:ℚ)) 10).length
          = (List.replicate 10 (0:ℚ)).length ∧
      ∀ m, j ≤ m →
        (extract_first_n ("no array here".data) (List.replicate 10 (0:ℚ)) 10).getD m 0
          = (List.replicate 10 (0:ℚ)).getD m 0) :=
  ⟨by decide, c10_frame ("no array here".data) (List.replicate 10 (0:ℚ)) 10 (by decide)⟩

/-- C9: absent-marker fallbacks are zero-valued — parse_handle returns 0 when
the `"handle"` marker is absent, extract_first_n leaves the output array
untouched when the `"[["` array start is absent, and on a zero-initialized
array (as declared at line 205) every position the extractor does not reach
still holds 0.0 when it enters the parity comparison. -/
theorem c9_zero_fallback :
    (∀ js : List Char, strstrSuffix handleMarker js = none → parse_handle js = 0) ∧
    (∀ (js : List Char) (out : List ℚ) (n : Nat),
        strstrSuffix ['[','['] js = none → extract_first_n js out n = out) ∧
    (∀ (js : List Char) (n : Nat), ∃ j ≤ n, ∀ m, j ≤ m →
        (extract_first_n js (List.replicate n (0:ℚ)) n).getD m 0 = 0) := by
  refine ⟨fun js h => ?_, fun js out n h => ?_, fun js n => ?_⟩
  · unfold parse_handle
    rw [h]
  · unfold extract_first_n
    rw [h]
  · unfold extract_first_n
    cases hs : strstrSuffix ['[','['] js with
    | none => exact ⟨0, Nat.zero_le _, fun m _ => getD_replicate_zero n m⟩
    | some p =>
      obtain ⟨j, hj, _, hfr⟩ := extractLoop_frame n 0 (p.drop 2) (List.replicate n 0)
      exact ⟨j, hj, fun m hm => by
        rw [hfr m (Or.inr (by omega))]
        exact getD_replicate_zero n m⟩

/-- Witness for C9 at concrete marker-free payloads. -/
theorem c9_zero_fallback_witness :
    parse_handle ("no marker".data) = 0 ∧
    extract_first_n ("no marker".data) [1, 2] 2 = [1, 2] :=
  ⟨c9_zero_fallback.1 ("no marker".data) (by decide),
   c9_zero_fallback.2.1 ("no marker".data) [1, 2] 2 (by decide)⟩

theorem repl_comma_eq : ∀ (hl : Nat) (x e : List Char),
    x ++ [','] ++ (List.replicate hl (e ++ [','])).flatten
      = sepJoin (x :: List.replicate hl e) ++ [',']
| 0, x, e => by simp [sepJoin]
| hl+1, x, e => by
  have ih := repl_comma_eq hl e e
  simp only [List.append_assoc] at ih
  simp only [List.replicate_succ, List.flatten_cons, List.append_assoc]
  rw [ih]
  simp [sepJoin, List.append_assoc]

theorem sepJoin_cons_of_ne : ∀ (x : List Char) (ys : List (List Char)), ys ≠ [] →
    sepJoin (x :: ys) = x ++ [','] ++ sepJoin ys
| _, [], h => absurd rfl h
| _, _ :: _, _ => rfl

theorem sepJoin_append_single : ∀ (x : List Char) (xs : List (List Char)) (z : List Char),
    sepJoin ((x :: xs) ++ [z]) = sepJoin (x :: xs) ++ [','] ++ z
| x, [], z => by simp [sepJoin]
| x, y :: rest, z => by
  have ih := sepJoin_append_single y rest z
  simp only [List.cons_append] at ih ⊢
  simp [sepJoin, ih, List.append_assoc]

/-- The line-123 pass changes nothing when every character except possibly
the last differs from `']'` (the rewrite only fires on a `','` that follows
a `']'`). -/
theorem fixupAux_frozen : ∀ (l : List Char) (prev : Char), prev ≠ ']' →
    (∀ c ∈ l.dropLast, c ≠ ']') → fixupAux prev l = l
| [], _, _, _ => rfl
| [c], prev, hp, _ => by
  show (if prev = ']' ∧ c = ',' then ' ' else c)
      :: fixupAux (if prev = ']' ∧ c = ',' then ' ' else c) [] = [c]
  rw [if_neg (fun hh => hp hh.1)]
  rfl
| c :: d :: rest, prev, hp, hl => by
  have hc : c ≠ ']' := hl c (by rw [List.dropLast_cons₂]; exact List.mem_cons_self _ _)
  have htail := fixupAux_frozen (d :: rest) c hc
    (fun x hx => hl x (by rw [List.dropLast_cons₂]; exact List.mem_cons_of_mem _ hx))
  show (if prev = ']' ∧ c = ',' then ' ' else c)
      :: fixupAux (if prev = ']' ∧ c = ',' then ' ' else c) (d :: rest) = c :: d :: rest
  rw [if_neg (fun hh => hp hh.1), htail]

theorem no_rb_of_digit {c : Char} (h : c ∈ digitChars) : c ≠ ']' := by
  intro he
  subst he
  exact absurd h (by decide)

theorem entryChars_no_rb (w : Nat) : ∀ c ∈ entryChars w, c ≠ ']' := by
  intro c hc
  simp only [entryChars, List.mem_append] at hc
  rcases hc with (hc | hc) | hc
  · intro he; subst he; exact absurd hc (by decide)
  · exact no_rb_of_digit (natStr_mem_digits hc)
  · intro he; subst he; exact absurd hc (by decide)

theorem sepJoin_no_rb : ∀ (L : List (List Char)),
    (∀ x ∈ L, ∀ c ∈ x, c ≠ ']') → ∀ c ∈ sepJoin L, c ≠ ']'
| [], _, c, hc => absurd hc (List.not_mem_nil c)
| [x], h, c, hc => h x (List.mem_singleton.mpr rfl) c hc
| x :: y :: rest, h, c, hc => by
  simp only [sepJoin, List.append_assoc, List.mem_append] at hc
  rcases hc with hc | hc | hc
  · exact h x (List.mem_cons_self _ _) c hc
  · simp only [List.mem_singleton] at hc
    subst hc
    decide
  · exact sepJoin_no_rb (y :: rest) (fun z hz => h z (List.mem_cons_of_mem x hz)) c hc

/-- Closed form of build_layers_json: an opening bracket, the comma-separated
entries for width `in_dim`, `hidden_layers` copies of width `hidden` and
width `out_dim`, and a closing bracket.  In particular the line-121
trailing-comma drop always fires and the line-123 rewrite pass never changes
anything, since `']'` occurs only as the final character. -/
theorem build_layers_eq (i h hl o : Nat) :
    build_layers_core i h hl o =
      '[' :: sepJoin (List.map entryChars (i :: (List.replicate hl h ++ [o]))) ++ [']'] := by
  have hbody := repl_comma_eq hl (entryChars i) (entryChars h)
  simp only [List.append_assoc] at hbody
  simp only [build_layers_core]
  rw [List.cons_append '[' (entryChars i ++ [','])
    ((List.replicate hl (entryChars h ++ [','])).flatten)]
  simp only [List.append_assoc]
  rw [hbody]
  rw [show ('[' :: (sepJoin (entryChars i :: List.replicate hl (entryChars h))
      ++ [','])).getLast? = some ','
    from List.getLast?_concat ('[' :: sepJoin (entryChars i :: List.replicate hl (entryChars h)))]
  rw [if_pos rfl]
  rw [show ('[' :: (sepJoin (entryChars i :: List.replicate hl (entryChars h))
      ++ [','])).dropLast = '[' :: sepJoin (entryChars i :: List.replicate hl (entryChars h))
    from @List.dropLast_concat Char
      ('[' :: sepJoin (entryChars i :: List.replicate hl (entryChars h))) ',']
  simp only [List.cons_append, List.nil_append, List.append_assoc]
  rw [fixup]
  have harg : sepJoin (entryChars i :: List.replicate hl (entryChars h))
        ++ (',' :: (entryChars o ++ [']']))
      = (sepJoin (entryChars i :: List.replicate hl (entryChars h))
        ++ (',' :: entryChars o)) ++ [']'] := by
    simp [List.append_assoc]
  rw [harg]
  have hdrop : ∀ c ∈ ((sepJoin (entryChars i :: List.replicate hl (entryChars h))
      ++ (',' :: entryChars o)) ++ [']']).dropLast, c ≠ ']' := by
    rw [List.dropLast_concat]
    intro c hc
    simp only [List.mem_append, List.mem_cons] at hc
    rcases hc with hc | hc | hc
    · refine sepJoin_no_rb _ ?_ c hc
      intro x hx
      rcases List.mem_cons.mp hx with hx | hx
      · subst hx; exact entryChars_no_rb i
      · rw [List.eq_of_mem_replicate hx]; exact entryChars_no_rb h
    · subst hc; decide
    · exact entryChars_no_rb o c hc
  rw [fixupAux_frozen _ '[' (by decide) hdrop]
  have hmap : List.map entryChars (i :: (List.replicate hl h ++ [o]))
      = (entryChars i :: List.replicate hl (entryChars h)) ++ [entryChars o] := by
    simp [List.map_replicate]
  rw [hmap, sepJoin_append_single]
  simp [List.append_assoc]

theorem count_entryChars (w : Nat) : (entryChars w).count '\x7b' = 1 := by
  have hA : (['\x7b','\"','W','i','d','t','h','\"',':'] : List Char).count '\x7b' = 1 := by
    decide
  have hB : ([',','\"','H','e','i','g','h','t','\"',':','1','\x7d'] : List Char).count '\x7b'
      = 0 := by decide
  simp [entryChars, List.count_append, hA, hB,
    natStr_count_eq_zero (show ('\x7b' : Char) ∉ digitChars by decide) w]

theorem count_sepJoin_lb : ∀ (ws : List Nat),
    (sepJoin (ws.map entryChars)).count '\x7b' = ws.length
| [] => rfl
| [w] => by simp [sepJoin, count_entryChars]
| w :: w2 :: rest => by
  have ih := count_sepJoin_lb (w2 :: rest)
  simp only [List.map_cons]
  rw [sepJoin_cons_of_ne _ _ (by simp)]
  rw [List.count_append, List.count_append, count_entryChars]
  have hcomma : ([','] : List Char).count '\x7b' = 0 := by decide
  rw [hcomma]
  simp only [List.map_cons] at ih
  rw [ih]
  simp only [List.length_cons]
  omega

theorem count_sepItems (item : List Char) (c : Char) (h1 : item.count c = 1)
    (hc : c ≠ ',') : ∀ k, (sepItems item k).count c = k
| 0 => rfl
| 1 => by simpa [sepItems] using h1
| k+2 => by
  have ih := count_sepItems item c h1 hc (k+1)
  have hcomma : ([','] : List Char).count c = 0 :=
    List.count_eq_zero.mpr (fun hm => hc (List.mem_singleton.mp hm))
  simp only [sepItems]
  rw [List.count_append, List.count_append, h1, hcomma, ih]
  omega

theorem count_build_activ (total : Nat) : (build_activ_core total).count 'r' = total := by
  have h2 := count_sepItems reluChars 'r' (by decide) (by decide) total
  simp [build_activ_core, List.count_cons, List.count_append, h2]

theorem count_build_fully (total : Nat) : (build_fully_core total).count 't' = total := by
  have h2 := count_sepItems trueChars 't' (by decide) (by decide) total
  simp [build_fully_core, List.count_cons, List.count_append, h2]

/-- C7: for all positive dimensions, the three descriptors built for a case
(run_case computes `total_layers = 1 + hidden_layers + 1`, line 154) contain
exactly hiddenLayers+2 entries each — counted via their distinguishing
characters, one `'\x7b'` per shape object, one `'r'` per `"relu"`, one `'t'`
per `true` — and the serialized shape list starts with the inputDim entry and
ends with the outputDim entry. -/
theorem c7_descriptor_shape (in_dim hidden hidden_layers out_dim : Nat)
    (h1 : 0 < in_dim) (h2 : 0 < hidden) (h3 : 0 < out_dim) :
    (build_layers_core in_dim hidden hidden_layers out_dim).count '\x7b'
        = hidden_layers + 2 ∧
    (build_activ_core (1 + hidden_layers + 1)).count 'r' = hidden_layers + 2 ∧
    (build_fully_core (1 + hidden_layers + 1)).count 't' = hidden_layers + 2 ∧
    ('[' :: (entryChars in_dim ++ [','])) <+:
      build_layers_core in_dim hidden hidden_layers out_dim ∧
    (entryChars out_dim ++ [']']) <:+
      build_layers_core in_dim hidden hidden_layers out_dim := by
  refine ⟨?_, ?_, ?_, ?_, ?_⟩
  · rw [build_layers_eq]
    have hs := count_sepJoin_lb
      (in_dim :: (List.replicate hidden_layers hidden ++ [out_dim]))
    have e1 : (('\x7b' : Char) == '[') = false := by decide
    have e2 : (('\x7b' : Char) == ']') = false := by decide
    have e3 : (('[' : Char) == '\x7b') = false := by decide
    have e4 : ((']' : Char) == '\x7b') = false := by decide
    simp only [List.count_cons, List.count_append, List.count_nil, e1, e2, e3, e4,
      Bool.false_eq_true, if_false]
    rw [hs]
    simp only [List.length_cons, List.length_append, List.length_replicate,
      List.length_nil]
  · rw [count_build_activ]
    omega
  · rw [count_build_fully]
    omega
  · rw [build_layers_eq]
    have hmap2 : List.map entryChars
          (in_dim :: (List.replicate hidden_layers hidden ++ [out_dim]))
        = entryChars in_dim ::
          (List.map entryChars (List.replicate hidden_layers hidden)
            ++ [entryChars out_dim]) := by
      simp
    rw [hmap2, sepJoin_cons_of_ne _ _ (by simp)]
    exact ⟨sepJoin (List.map entryChars (List.replicate hidden_layers hidden)
        ++ [entryChars out_dim]) ++ [']'],
      by simp [List.append_assoc]⟩
  · rw [build_layers_eq]
    have hmap3 : List.map entryChars
          (in_dim :: (List.replicate hidden_layers hidden ++ [out_dim]))
        = (entryChars in_dim ::
            List.map entryChars (List.replicate hidden_layers hidden))
          ++ [entryChars out_dim] := by
      simp
    rw [hmap3, sepJoin_append_single]
    exact ⟨'[' :: (sepJoin (entryChars in_dim ::
        List.map entryChars (List.replicate hidden_layers hidden)) ++ [',']),
      by simp [List.append_assoc]⟩

/-- Witness for C7 at the S1 case dimensions. -/
theorem c7_descriptor_witness :
    (build_layers_core 784 64 1 10).count '\x7b' = 1 + 2 ∧
    (build_activ_core (1 + 1 + 1)).count 'r' = 1 + 2 ∧
    (build_fully_core (1 + 1 + 1)).count 't' = 1 + 2 ∧
    ('[' :: (entryChars 784 ++ [','])) <+: build_layers_core 784 64 1 10 ∧
    (entryChars 10 ++ [']']) <:+ build_layers_core 784 64 1 10 :=
  c7_descriptor_shape 784 64 1 10 (by decide) (by decide) (by decide)

/-- C5 counterexample: the claimed "approximately 0.206 MB" is wrong — the
code's estimate for S1 is exactly 25445/131072 ≈ 0.19413 MB, more than 0.01
away from 0.206.  (The spec's own formula
(784·64 + 64·10 + 1·64 + 10)·4/2^20 evaluates to 0.194…, so the figure 0.206
is a mis-evaluation inside the spec.) -/
theorem c5_vram_cex :
    est_vram_mb_fc 784 64 1 10 = 25445 / 131072 ∧
    ¬ |est_vram_mb_fc 784 64 1 10 - 206 / 1000| < 1 / 100 := by
  have h : est_vram_mb_fc 784 64 1 10 = 25445 / 131072 := by
    norm_num [est_vram_mb_fc]
  refine ⟨h, ?_⟩
  rw [h]
  rw [abs_of_nonpos (by norm_num)]
  norm_num

/-- C5 amended: the S1 case (inputDim 784, hiddenWidth 64, hiddenLayers 1,
outputDim 10, runs 100, per main's table) produces exactly the 3-entry
topology descriptor `[{784,1},{64,1},{10,1}]`, the 3-entry all-"relu"
activation descriptor, and an estimated VRAM of 25445/131072 ≈ 0.194 MB. -/
theorem c5_s1_scenario :
    benchCases.head? = some ("S1", 64, 1) ∧
    inDimMain = 784 ∧ outDimMain = 10 ∧ runsMain = 100 ∧
    build_layers_json 784 64 1 10 =
      "[\x7b\"Width\":784,\"Height\":1\x7d,\x7b\"Width\":64,\"Height\":1\x7d,\x7b\"Width\":10,\"Height\":1\x7d]" ∧
    build_activ_json (1 + 1 + 1) = "[\"relu\",\"relu\",\"relu\"]" ∧
    est_vram_mb_fc 784 64 1 10 = 25445 / 131072 ∧
    |est_vram_mb_fc 784 64 1 10 - 194 / 1000| < 1 / 1000 := by
  refine ⟨rfl, rfl, rfl, rfl, by decide, by decide, ?_, ?_⟩
  · norm_num [est_vram_mb_fc]
  · have h : est_vram_mb_fc 784 64 1 10 = 25445 / 131072 := by
      norm_num [est_vram_mb_fc]
    rw [h]
    rw [abs_of_nonneg (by norm_num)]
    norm_num
